import Mathlib

/-!
Verification of the route discovery and matching subsystem of the d-nerve
backend (files `app/services/route_discovery.py` and
`app/services/route_matching.py`).

The Python services are shallowly embedded below.  Pure text processing
(normalization, alias resolution, route matching) is embedded with
computable Lean functions on `String`/`List Char`; geometric code (the
haversine formula and everything built on it) manipulates Python floats
doing real trigonometry, which we idealize as real numbers `ℝ`, so those
definitions are `noncomputable`.  Python's `round(x, n)` (round half to
even) is modelled by `pyRound`/`pyRoundTo`.  `numpy.mean` of an empty
list yields NaN; floats that may be NaN are modelled by the type `NpF`
(a real number or NaN, with NaN propagating through arithmetic and NaN
being truthy, as in Python).
-/

open scoped Classical

namespace DNerve

/-! ## Text utilities (`route_matching.py`)

Python string primitives used by `normalize_text` and the substring
operator `in`, restricted to the semantics relevant here (`str.lower`
only affects ASCII letters among the characters appearing in this
code base; `\s` and `str.strip()` whitespace is the ASCII whitespace
set). -/

/-- Whitespace as matched by Python's `\s` / stripped by `str.strip()`
(ASCII part). -/
def pyIsSpace (c : Char) : Bool :=
  c == ' ' || c == '\t' || c == '\n' || c == '\r' || c == '\x0b' || c == '\x0c'

/-- Python `str.strip()`: drop leading and trailing whitespace. -/
def pyStrip (l : List Char) : List Char :=
  ((l.dropWhile pyIsSpace).reverse.dropWhile pyIsSpace).reverse

/-- Worker for `collapseWs`: the flag records whether the previous
character was whitespace (in which case further whitespace is absorbed
into the already-emitted space). -/
def collapseWsAux : Bool → List Char → List Char
  | _, [] => []
  | prevWs, c :: rest =>
    if pyIsSpace c then
      if prevWs then collapseWsAux true rest else ' ' :: collapseWsAux true rest
    else c :: collapseWsAux false rest

/-- Python `re.sub(r'\s+', ' ', text)`: replace each maximal run of
whitespace characters by a single space. -/
def collapseWs (l : List Char) : List Char := collapseWsAux false l

/-- `normalize_text` from `route_matching.py`: lowercase, strip, collapse
internal whitespace runs to single spaces.  (The early `if not text`
return produces `""` which coincides with running the pipeline on the
empty string.) -/
def normalize_text (s : String) : String :=
  String.mk (collapseWs (pyStrip (s.data.map Char.toLower)))

/-- Check whether `n` is a leading subword of `h` (helper for the
substring test). -/
def isLeadOf : List Char → List Char → Bool
  | [], _ => true
  | _ :: _, [] => false
  | a :: as, b :: bs => a == b && isLeadOf as bs

/-- Python's substring operator: `containsSub needle hay` is
`needle in hay`. -/
def containsSub (needle : List Char) : List Char → Bool
  | [] => needle.isEmpty
  | hay@(_ :: rest) => isLeadOf needle hay || containsSub needle rest

/-- Python `a in b` on strings. -/
def pyIn (a b : String) : Bool := containsSub a.data b.data

/-- `AREA_ALIASES` from `route_matching.py` (dict in declaration order). -/
def AREA_ALIASES : List (String × List String) :=
  [ ("ramses", ["ramses", "رمسيس", "ramsis", "mahatet masr", "train station"]),
    ("tahrir", ["tahrir", "التحرير", "tahrer", "midan tahrir"]),
    ("giza", ["giza", "الجيزة", "gizah", "pyramids area"]),
    ("maadi", ["maadi", "المعادي", "maady", "maadi degla"]),
    ("heliopolis", ["heliopolis", "مصر الجديدة", "masr el gedida", "misr el gedida"]),
    ("nasr city", ["nasr city", "مدينة نصر", "nasr", "madinet nasr"]),
    ("mohandessin", ["mohandessin", "المهندسين", "mohandiseen", "mohandseen"]),
    ("dokki", ["dokki", "الدقي", "doki", "doqqi"]),
    ("shubra", ["shubra", "شبرا", "shoubra", "shobra"]),
    ("zamalek", ["zamalek", "الزمالك", "zamalak"]),
    ("downtown", ["downtown", "وسط البلد", "wust el balad", "ataba", "opera"]),
    ("6th october", ["6th october", "6 october", "السادس من أكتوبر", "october", "6 اكتوبر"]),
    ("new cairo", ["new cairo", "القاهرة الجديدة", "tagamoa", "التجمع", "rehab", "fifth settlement"]),
    ("helwan", ["helwan", "حلوان", "heloan"]),
    ("ain shams", ["ain shams", "عين شمس", "ein shams"]),
    ("abbassia", ["abbassia", "العباسية", "abbasia", "abasseya"]),
    ("imbaba", ["imbaba", "إمبابة", "embaba"]),
    ("dar el salam", ["dar el salam", "دار السلام", "dar alsalam"]),
    ("zeitoun", ["zeitoun", "الزيتون", "zaytoun", "zaitoun"]),
    ("ataba", ["ataba", "العتبة", "attaba"]) ]

/-- Scan of the alias table performed by `get_canonical_name` on an
already normalized string: first canonical entry one of whose aliases
contains, or is contained in, the normalized text. -/
def canonLookup (normalized : String) : Option String :=
  AREA_ALIASES.findSome? fun ca =>
    if ca.2.any (fun al => pyIn al normalized || pyIn normalized al) then some ca.1
    else none

/-- `get_canonical_name` from `route_matching.py`. -/
def get_canonical_name (text : String) : Option String :=
  canonLookup (normalize_text text)

/-! ## Float-or-NaN values

`numpy.mean([])` is NaN; NaN propagates through `+` and `/` and is
truthy in Python.  Other float behavior is idealized as real
arithmetic. -/

/-- A Python float that is either NaN or an (idealized) real number. -/
inductive NpF
  | nan : NpF
  | val : ℝ → NpF

/-- Python truthiness of a float: `0.0` is falsy, every other float —
including NaN — is truthy. -/
def NpF.truthy : NpF → Prop
  | .nan => True
  | .val x => x ≠ 0

/-- Float addition with NaN propagation. -/
noncomputable def NpF.add : NpF → NpF → NpF
  | .val x, .val y => .val (x + y)
  | _, _ => .nan

/-- Division of a float by a (nonzero, non-NaN) real constant, with NaN
propagation. -/
noncomputable def NpF.divR : NpF → ℝ → NpF
  | .val x, c => .val (x / c)
  | .nan, _ => .nan

/-- `numpy.mean` of a list of floats: NaN on the empty list, else the
arithmetic mean. -/
noncomputable def npMean (l : List ℝ) : NpF :=
  if l = [] then .nan else .val (l.sum / l.length)

/-! ## The `Route` record (table `routes` in `database.py`)

Only the columns touched by the two services are modelled.
`avg_duration_minutes` is an `NpF` because discovery can write a NaN
into it (see `extract_route_from_cluster`). -/

structure Route where
  route_id : String
  name : String
  origin : String
  destination : String
  origin_lat : ℝ
  origin_lon : ℝ
  dest_lat : ℝ
  dest_lon : ℝ
  distance_km : ℝ
  avg_duration_minutes : NpF
  fare_egp : ℝ
  trip_count : ℕ
  is_active : Bool

/-! ## `match_route` (`route_matching.py`)

The loop body of `match_route` computes, per route, a score in
`{1, 0.8, 0.4, 0}`; the running state is
`(best_match, best_score, match_type)`.  `routeScore` is the per-route
score (hoisting the normalization of the input texts out of the loop is
semantics-preserving since all functions are pure). -/

/-- The score `0.4` (one endpoint matches).  Written with an explicit
numerator/denominator so that the kernel can evaluate comparisons. -/
def score04 : ℚ := Rat.mk' 2 5

/-- The score `0.8` (both endpoints match loosely). -/
def score08 : ℚ := Rat.mk' 4 5

theorem score04_eq : score04 = 2/5 := by
  rw [score04, Rat.mk'_eq_divInt, Rat.divInt_eq_div]; norm_num

theorem score08_eq : score08 = 4/5 := by
  rw [score08, Rat.mk'_eq_divInt, Rat.divInt_eq_div]; norm_num

/-- Per-route score computed by the loop body of `match_route`. -/
def routeScore (origin_text dest_text : String) (r : Route) : ℚ :=
  let origin_normalized := normalize_text origin_text
  let dest_normalized := normalize_text dest_text
  let origin_canonical := get_canonical_name origin_text
  let dest_canonical := get_canonical_name dest_text
  let route_origin := normalize_text r.origin
  let route_dest := normalize_text r.destination
  let route_origin_canonical := get_canonical_name r.origin
  let route_dest_canonical := get_canonical_name r.destination
  if origin_canonical.isSome && dest_canonical.isSome &&
      (origin_canonical == route_origin_canonical) && (dest_canonical == route_dest_canonical) then
    1
  else
    let origin_match := pyIn origin_normalized route_origin ||
      pyIn route_origin origin_normalized ||
      (match origin_canonical with
        | some c => pyIn c route_origin
        | none => false)
    let dest_match := pyIn dest_normalized route_dest ||
      pyIn route_dest dest_normalized ||
      (match dest_canonical with
        | some c => pyIn c route_dest
        | none => false)
    if origin_match && dest_match then score08
    else if origin_match || dest_match then score04
    else 0

/-- One iteration of the `match_route` scan.  The state is
`(best_match, best_score, match_type)`; note that the code updates
`match_type` whenever a route scores nonzero, even when that route does
not beat `best_score`. -/
def matchStep (origin_text dest_text : String) (st : Option Route × ℚ × String)
    (r : Route) : Option Route × ℚ × String :=
  let score := routeScore origin_text dest_text r
  let mt := if score == 0 then st.2.2 else if score == 1 then "exact" else "partial"
  if score > st.2.1 then (some r, score, mt) else (st.1, st.2.1, mt)

/-- The subset of route columns returned by a successful match. -/
structure RoutePayload where
  route_id : String
  name : String
  origin : String
  destination : String
  distance_km : ℝ
  avg_duration_minutes : NpF
  fare_egp : ℝ

/-- Payload built from `best_match` by `match_route`. -/
def Route.toPayload (r : Route) : RoutePayload :=
  { route_id := r.route_id, name := r.name, origin := r.origin,
    destination := r.destination, distance_km := r.distance_km,
    avg_duration_minutes := r.avg_duration_minutes, fare_egp := r.fare_egp }

/-- Result dictionary of `match_route`. -/
structure MatchResult where
  matched : Bool
  route : Option RoutePayload
  match_type : String
  confidence : ℚ
  suggestion : Option String

/-- The `matched = False` result. -/
def noMatchResult : MatchResult :=
  { matched := false, route := none, match_type := "none", confidence := 0,
    suggestion := some "No matching route found. Try selecting from popular routes." }

/-- `match_route` from `route_matching.py`.  The store is passed as a
list; the `is_active` filter of the SQL query is applied first. -/
def match_route (origin_text dest_text : String) (store : List Route) : MatchResult :=
  let routes := store.filter (·.is_active)
  let st := routes.foldl (matchStep origin_text dest_text) (none, 0, "none")
  match st.1 with
  | some best_match =>
    if st.2.1 ≥ score04 then
      { matched := true, route := some best_match.toPayload,
        match_type := st.2.2, confidence := st.2.1, suggestion := none }
    else noMatchResult
  | none => noMatchResult

/-- Best score over a scan, as in the claim: running maximum starting
from `0`. -/
def bestScore (origin_text dest_text : String) (routes : List Route) : ℚ :=
  routes.foldl (fun acc r => max acc (routeScore origin_text dest_text r)) 0

/-! ## Python rounding

`round(x, n)` on floats rounds to the nearest multiple of `10^(-n)`,
ties to even (banker's rounding), idealized over `ℝ`. -/

/-- Python `round(x)` to an integer: nearest integer, ties to even. -/
noncomputable def pyRound (x : ℝ) : ℤ :=
  if Int.fract x = 1/2 then (if Even ⌊x⌋ then ⌊x⌋ else ⌊x⌋ + 1) else round x

/-- Python `round(x, n)`: nearest multiple of `10^(-n)`, ties to even. -/
noncomputable def pyRoundTo (n : ℕ) (x : ℝ) : ℝ :=
  (pyRound (x * 10 ^ n) : ℝ) / 10 ^ n

/-! ## Great-circle distance (`haversine_distance` / `estimate_distance`)

Both services implement the same haversine formula; `route_discovery.py`
uses Earth radius `6371000` (metres) and `route_matching.py` uses `6371`
(kilometres).  `hav_a` is the intermediate value `a` of the code. -/

/-- `math.radians`. -/
noncomputable def rad (x : ℝ) : ℝ := x * Real.pi / 180

/-- The intermediate `a` of the haversine formula:
`sin²(Δφ/2) + cos φ₁ · cos φ₂ · sin²(Δλ/2)` with all angles in
radians. -/
noncomputable def hav_a (lat1 lon1 lat2 lon2 : ℝ) : ℝ :=
  Real.sin ((rad lat2 - rad lat1) / 2) ^ 2 +
    Real.cos (rad lat1) * Real.cos (rad lat2) *
      Real.sin ((rad lon2 - rad lon1) / 2) ^ 2

/-- `R * c` with `c = 2 * asin(sqrt a)`. -/
noncomputable def hav_core (R lat1 lon1 lat2 lon2 : ℝ) : ℝ :=
  R * (2 * Real.arcsin (Real.sqrt (hav_a lat1 lon1 lat2 lon2)))

/-- `haversine_distance` from `route_discovery.py` (metres). -/
noncomputable def haversine_distance (lat1 lon1 lat2 lon2 : ℝ) : ℝ :=
  hav_core 6371000 lat1 lon1 lat2 lon2

/-- The straight-line (great-circle) part of `estimate_distance` from
`route_matching.py` (kilometres). -/
noncomputable def straight_distance (origin_lat origin_lon dest_lat dest_lon : ℝ) : ℝ :=
  hav_core 6371 origin_lat origin_lon dest_lat dest_lon

/-- `estimate_distance` from `route_matching.py`: haversine times the
road factor `1.35`, rounded to two decimals. -/
noncomputable def estimate_distance (origin_lat origin_lon dest_lat dest_lon : ℝ) : ℝ :=
  pyRoundTo 2 (straight_distance origin_lat origin_lon dest_lat dest_lon * 1.35)

/-! ## Hub registry and nearest-hub snapping (`route_discovery.py`) -/

/-- `CAIRO_HUBS` (dict in declaration order). -/
noncomputable def CAIRO_HUBS : List (String × ℝ × ℝ) :=
  [ ("Ramses Square", 30.0619, 31.2466),
    ("Tahrir Square", 30.0444, 31.2357),
    ("Giza Square", 30.0131, 31.2089),
    ("Ataba Square", 30.0531, 31.2469),
    ("Maadi", 29.9602, 31.2569),
    ("Heliopolis", 30.0866, 31.3225),
    ("Nasr City", 30.0511, 31.3656),
    ("Shubra", 30.0986, 31.2422),
    ("Mohandessin", 30.0609, 31.2003),
    ("Dokki", 30.0392, 31.2125),
    ("Ain Shams", 30.1311, 31.3194),
    ("Zeitoun", 30.1167, 31.3000),
    ("Abbassia", 30.0722, 31.2833),
    ("Imbaba", 30.0758, 31.2078),
    ("Dar El Salam", 29.9833, 31.2417),
    ("6th October City", 29.9389, 30.9167),
    ("New Cairo", 30.0300, 31.4700),
    ("Helwan", 29.8500, 31.3340),
    ("Zamalek", 30.0609, 31.2194),
    ("Downtown", 30.0459, 31.2394) ]

/-- One iteration of the `find_nearest_hub` scan.  The state is the
current `(nearest_hub, min_distance)`, with `none` standing for
`(None, inf)` — any real distance is below `inf`, so from the `none`
state only the `distance <= max_distance_m` test matters. -/
noncomputable def fnhStep (lat lon maxd : ℝ) (st : Option (String × ℝ))
    (hub : String × ℝ × ℝ) : Option (String × ℝ) :=
  let d := haversine_distance lat lon hub.2.1 hub.2.2
  match st with
  | none => if d ≤ maxd then some (hub.1, d) else none
  | some p => if d < p.2 ∧ d ≤ maxd then some (hub.1, d) else some p

/-- `find_nearest_hub` from `route_discovery.py` (`max_distance_m`
defaults to `2000` at every call site relevant here). -/
noncomputable def find_nearest_hub (lat lon maxd : ℝ) : Option String :=
  (CAIRO_HUBS.foldl (fnhStep lat lon maxd) none).map Prod.fst

/-! ## Trajectory extraction (`extract_trajectory_features`) -/

/-- `MIN_GPS_POINTS`. -/
def MIN_GPS_POINTS : ℕ := 10

/-- `MIN_SAMPLES`. -/
def MIN_SAMPLES : ℕ := 3

/-- A parsed GPS fix (dict with `latitude`, `longitude` and an optional
`timestamp`). -/
structure GpsPoint where
  latitude : ℝ
  longitude : ℝ
  timestamp : Option String

/-- Sort key of `sorted(gps_points, key=lambda p: p.get('timestamp', ''))`. -/
def tsKey (p : GpsPoint) : String := p.timestamp.getD ""

/-- Comparison used for sorting fixes (Python compares timestamp strings
lexicographically). -/
def tsLe (p q : GpsPoint) : Prop := tsKey p ≤ tsKey q

instance : DecidableRel tsLe := fun p q => inferInstanceAs (Decidable (tsKey p ≤ tsKey q))

instance : IsTotal GpsPoint tsLe := ⟨fun p q => le_total (tsKey p) (tsKey q)⟩

instance : IsTrans GpsPoint tsLe := ⟨fun _ _ _ h h' => le_trans h h'⟩

/-- Python's `sorted` is a stable sort; insertion sort with a total
preorder is stable in the same sense (proved below), so it models it. -/
def sortPoints (pts : List GpsPoint) : List GpsPoint := List.insertionSort tsLe pts

/-- Sum of consecutive haversine segment lengths (metres), as computed
by the `for i in range(1, len(sorted_points))` loop. -/
noncomputable def pathDist : List GpsPoint → ℝ
  | p :: q :: rest =>
    haversine_distance p.latitude p.longitude q.latitude q.longitude + pathDist (q :: rest)
  | _ => 0

/-- The trajectory summary returned by `extract_trajectory_features`. -/
structure Traj where
  start : ℝ × ℝ
  endp : ℝ × ℝ
  distance_km : ℝ
  point_count : ℕ

/-- `extract_trajectory_features` from `route_discovery.py` (the guard
`not gps_points or len(gps_points) < MIN_GPS_POINTS` is equivalent to
`len < MIN_GPS_POINTS`; the `[]` branch of the match is unreachable
because sorting preserves length). -/
noncomputable def extract_trajectory_features (gps_points : List GpsPoint) : Option Traj :=
  if gps_points.length < MIN_GPS_POINTS then none
  else
    match sortPoints gps_points with
    | [] => none
    | p :: rest =>
      some { start := (p.latitude, p.longitude),
             endp := (((p :: rest).getLast (List.cons_ne_nil p rest)).latitude,
                      ((p :: rest).getLast (List.cons_ne_nil p rest)).longitude),
             distance_km := pathDist (p :: rest) / 1000,
             point_count := (p :: rest).length }

/-! ## Route synthesis from a cluster (`extract_route_from_cluster`) -/

/-- The columns of a `Trip` row read by the discovery pipeline:
`duration_minutes` (nullable float) and the GPS payload.  `gps_data`
is the parsed `gps_points_json`; `none` models a missing or malformed
payload (`json.loads` raising). -/
structure TripRec where
  duration_minutes : Option ℝ
  gps_data : Option (List GpsPoint)

/-- Non-NaN arithmetic mean, used where the list is guaranteed nonempty
(cluster coordinate/distance averages — the cluster is checked nonempty
first). -/
noncomputable def npMeanR (l : List ℝ) : ℝ := l.sum / l.length

/-- The duration values kept by
`[t.duration_minutes for t in trips if t.duration_minutes]`
(`None` and `0` are falsy and dropped). -/
noncomputable def tripDurations (trips : List TripRec) : List ℝ :=
  trips.filterMap fun t =>
    match t.duration_minutes with
    | some v => if v ≠ 0 then some v else none
    | none => none

/-- Hub snapped to the cluster's mean start point. -/
noncomputable def cluster_origin_hub (trajectories : List Traj) : Option String :=
  find_nearest_hub (npMeanR (trajectories.map (·.start.1)))
    (npMeanR (trajectories.map (·.start.2))) 2000

/-- Hub snapped to the cluster's mean end point. -/
noncomputable def cluster_dest_hub (trajectories : List Traj) : Option String :=
  find_nearest_hub (npMeanR (trajectories.map (·.endp.1)))
    (npMeanR (trajectories.map (·.endp.2))) 2000

/-- `CAIRO_HUBS[name]` (guarded in the code: the name always comes from
`find_nearest_hub`, hence is a key of the dict). -/
noncomputable def hubCoords (name : String) : ℝ × ℝ :=
  ((CAIRO_HUBS.find? (·.1 == name)).map (·.2)).getD (0, 0)

/-- The candidate route dictionary returned by
`extract_route_from_cluster`. -/
structure RouteC where
  origin : String
  destination : String
  origin_lat : ℝ
  origin_lon : ℝ
  dest_lat : ℝ
  dest_lon : ℝ
  distance_km : ℝ
  avg_duration_minutes : NpF
  trip_count : ℕ

/-- Construction of the candidate dictionary (the part of
`extract_route_from_cluster` after the snap checks).  Note the
`avg_duration` truthiness test: `numpy.mean` of an empty list is NaN,
and NaN is truthy, so the `avg_distance * 3` fallback is taken only
when the mean is exactly `0`. -/
noncomputable def mkRouteC (trajectories : List Traj) (trips : List TripRec)
    (origin_hub dest_hub : String) : RouteC :=
  let avg_distance := npMeanR (trajectories.map (·.distance_km))
  let avg_duration := npMean (tripDurations trips)
  let origin_coords := hubCoords origin_hub
  let dest_coords := hubCoords dest_hub
  { origin := origin_hub,
    destination := dest_hub,
    origin_lat := origin_coords.1,
    origin_lon := origin_coords.2,
    dest_lat := dest_coords.1,
    dest_lon := dest_coords.2,
    distance_km := pyRoundTo 1 avg_distance,
    avg_duration_minutes :=
      if avg_duration.truthy then
        match avg_duration with
        | .nan => .nan
        | .val x => .val (pyRoundTo 0 x)
      else .val (pyRoundTo 0 (avg_distance * 3)),
    trip_count := trajectories.length }

/-- `extract_route_from_cluster` from `route_discovery.py`. -/
noncomputable def extract_route_from_cluster (trajectories : List Traj)
    (trips : List TripRec) : Option RouteC :=
  if trajectories = [] then none
  else
    match cluster_origin_hub trajectories, cluster_dest_hub trajectories with
    | some origin_hub, some dest_hub =>
      if origin_hub = dest_hub then none
      else some (mkRouteC trajectories trips origin_hub dest_hub)
    | _, _ => none

/-! ## Discovery orchestration (`discover_routes`)

The SQL fetch is modelled by passing the fetched trips as a list; the
DBSCAN wrapper `cluster_trajectories` (whose clustering is done by
scikit-learn, external to this repository) is modelled by a function
parameter `clusterFn` returning the cluster-id → indices mapping as an
association list; identifier generation (which uses the wall clock) is
modelled by a parameter `idGen` applied to the current
`routes_discovered` counter. -/

/-- The discovery report dictionary.  `clusters_found` is only present
in the final (success) report; `none` models its absence. -/
structure Report where
  success : Bool
  routes_discovered : ℕ
  routes_updated : ℕ
  trips_processed : ℕ
  clusters_found : Option ℕ
  message : String

/-- The `(origin, destination)` equality test of the upsert query. -/
def routeMatches (cand : RouteC) (r : Route) : Bool :=
  r.origin == cand.origin && r.destination == cand.destination

/-- The new `Route` row created for a candidate with no existing
`(origin, destination)` match. -/
noncomputable def newRoute (cand : RouteC) (rid : String) : Route :=
  { route_id := rid,
    name := cand.origin ++ " - " ++ cand.destination,
    origin := cand.origin,
    destination := cand.destination,
    origin_lat := cand.origin_lat,
    origin_lon := cand.origin_lon,
    dest_lat := cand.dest_lat,
    dest_lon := cand.dest_lon,
    distance_km := cand.distance_km,
    avg_duration_minutes := cand.avg_duration_minutes,
    fare_egp := pyRoundTo 0 (cand.distance_km * 0.5),
    trip_count := cand.trip_count,
    is_active := true }

/-- The in-place update of an existing route: `trip_count` incremented,
`avg_duration_minutes` replaced by the two-point average. -/
noncomputable def updateRoute (r : Route) (cand : RouteC) : Route :=
  { r with trip_count := r.trip_count + cand.trip_count,
           avg_duration_minutes :=
             (r.avg_duration_minutes.add cand.avg_duration_minutes).divR 2 }

/-- The per-candidate store reconciliation of `discover_routes`: update
the first route with the same `(origin, destination)` pair, else append
a new row.  The boolean is `true` when a new route was created. -/
noncomputable def upsert_candidate : List Route → RouteC → String → List Route × Bool
  | [], cand, rid => ([newRoute cand rid], true)
  | r :: rest, cand, rid =>
    if routeMatches cand r then (updateRoute r cand :: rest, false)
    else
      let res := upsert_candidate rest cand rid
      (r :: res.1, res.2)

/-- The trajectory-extraction pass of `discover_routes`: parse each
trip's payload, keep trips whose payload parses and yields a summary. -/
noncomputable def extractPairs (trips : List TripRec) : List (Traj × TripRec) :=
  trips.filterMap fun t =>
    match t.gps_data with
    | none => none
    | some pts => (extract_trajectory_features pts).map (fun f => (f, t))

/-- The per-cluster loop of `discover_routes`, folded over the cluster
map.  The state is `(store, routes_discovered, routes_updated)`. -/
noncomputable def clusterFold (pairs : List (Traj × TripRec)) (idGen : ℕ → String)
    (acc : List Route × ℕ × ℕ) (cl : ℕ × List ℕ) : List Route × ℕ × ℕ :=
  let cluster_trajectories := cl.2.filterMap fun i => (pairs.map Prod.fst)[i]?
  let cluster_trips := cl.2.filterMap fun i => (pairs.map Prod.snd)[i]?
  match extract_route_from_cluster cluster_trajectories cluster_trips with
  | none => acc
  | some cand =>
    let res := upsert_candidate acc.1 cand (idGen acc.2.1)
    if res.2 then (res.1, acc.2.1 + 1, acc.2.2) else (res.1, acc.2.1, acc.2.2 + 1)

/-- `discover_routes` from `route_discovery.py`.  `trips` is the result
of the date/GPS-count fetch; the function returns the report and the
resulting route store. -/
noncomputable def discover_routes (clusterFn : List Traj → List (ℕ × List ℕ))
    (idGen : ℕ → String) (trips : List TripRec) (store : List Route)
    (min_trips : ℕ) : Report × List Route :=
  if trips.length < min_trips then
    ({ success := false, routes_discovered := 0, routes_updated := 0,
       trips_processed := trips.length, clusters_found := none,
       message := "Not enough trips (" ++ toString trips.length ++ "/" ++
         toString min_trips ++ "). Need more data." }, store)
  else
    let pairs := extractPairs trips
    if pairs.length < MIN_SAMPLES then
      ({ success := false, routes_discovered := 0, routes_updated := 0,
         trips_processed := trips.length, clusters_found := none,
         message := "Not enough valid trajectories (" ++ toString pairs.length ++ ")" },
       store)
    else
      let clusters := clusterFn (pairs.map Prod.fst)
      if clusters = [] then
        ({ success := false, routes_discovered := 0, routes_updated := 0,
           trips_processed := trips.length, clusters_found := none,
           message := "No clusters found. Trips may be too diverse." }, store)
      else
        let final := clusters.foldl (clusterFold pairs idGen) (store, 0, 0)
        ({ success := true, routes_discovered := final.2.1,
           routes_updated := final.2.2, trips_processed := trips.length,
           clusters_found := some clusters.length,
           message := "Discovery complete. Found " ++ toString final.2.1 ++
             " new routes, updated " ++ toString final.2.2 ++ " existing." },
         final.1)

/-! ## Lemmas: normalization of whitespace-only text -/

theorem toLower_of_ws (c : Char) (h : pyIsSpace c = true) : c.toLower = c := by
  simp only [pyIsSpace, Bool.or_eq_true, beq_iff_eq] at h
  rcases h with ((((rfl | rfl) | rfl) | rfl) | rfl) | rfl <;> decide

theorem pyStrip_all_ws (l : List Char) (h : ∀ c ∈ l, pyIsSpace c = true) :
    pyStrip l = [] := by
  simp [pyStrip, List.dropWhile_eq_nil_iff.mpr h]

theorem normalize_all_ws (s : String) (h : ∀ c ∈ s.data, pyIsSpace c = true) :
    normalize_text s = "" := by
  have hmap : ∀ c ∈ s.data.map Char.toLower, pyIsSpace c = true := by
    intro c hc
    obtain ⟨a, ha, rfl⟩ := List.mem_map.mp hc
    rw [toLower_of_ws a (h a ha)]
    exact h a ha
  rw [normalize_text, pyStrip_all_ws _ hmap]
  rfl

/-- C10: an input consisting only of whitespace normalizes to the empty
string, and since the empty string is a substring of every alias,
`get_canonical_name` returns the first entry of the alias table,
`"ramses"`, rather than `none`. -/
theorem whitespace_input_resolves_to_ramses (s : String)
    (h : ∀ c ∈ s.data, pyIsSpace c = true) :
    normalize_text s = "" ∧ get_canonical_name s = some "ramses" := by
  have hn := normalize_all_ws s h
  exact ⟨hn, by rw [get_canonical_name, hn]; decide⟩

/-- Witness for C10: the two-space input. -/
theorem whitespace_input_resolves_to_ramses_witness :
    normalize_text "  " = "" ∧ get_canonical_name "  " = some "ramses" :=
  whitespace_input_resolves_to_ramses "  " (by decide)

/-! ## C9: `match_type` is not tied to the returned best match

The loop writes `match_type` whenever the current route scores nonzero,
even when that route does not displace `best_match`; so a later, lower
scoring route overwrites the `match_type` earned by the best one. -/

/-- Store row `Ramses Square → Tahrir Square` (payload floats are
irrelevant to matching and set to `0`). -/
noncomputable def rtRamsesTahrir : Route :=
  { route_id := "r1", name := "Ramses Square - Tahrir Square",
    origin := "Ramses Square", destination := "Tahrir Square",
    origin_lat := 0, origin_lon := 0, dest_lat := 0, dest_lon := 0,
    distance_km := 0, avg_duration_minutes := .val 0, fare_egp := 0,
    trip_count := 0, is_active := true }

/-- Store row `Giza → Tahrir Square`. -/
noncomputable def rtGizaTahrir : Route :=
  { rtRamsesTahrir with
    route_id := "r2",
    name := "Giza - Tahrir Square",
    origin := "Giza" }

/-- C9 (refuting evaluation): on the store
`[Ramses Square → Tahrir Square, Giza → Tahrir Square]` with inputs
`"ramses"`/`"tahrir"`, the first route scores `1.0` and wins, yet the
returned `match_type` is `"partial"` — it was overwritten by the second
route, which scores only `0.4`. -/
theorem match_type_not_from_best_eval :
    (match_route "ramses" "tahrir" [rtRamsesTahrir, rtGizaTahrir]).matched = true ∧
    (match_route "ramses" "tahrir" [rtRamsesTahrir, rtGizaTahrir]).confidence = 1 ∧
    (match_route "ramses" "tahrir" [rtRamsesTahrir, rtGizaTahrir]).match_type = "partial" ∧
    routeScore "ramses" "tahrir" rtRamsesTahrir = 1 ∧
    routeScore "ramses" "tahrir" rtGizaTahrir = score04 :=
  ⟨by decide, by decide, by decide, by decide, by decide⟩

/-! ## C5: too few fetched trips aborts without touching the store -/

/-- C5: when the number of fetched trips is below `min_trips`, the run
aborts with the insufficient-data report (`success = false`, zero
discovered/updated, `trips_processed` = fetched count) and leaves the
route store unchanged. -/
theorem insufficient_trips_aborts (clusterFn : List Traj → List (ℕ × List ℕ))
    (idGen : ℕ → String) (trips : List TripRec) (store : List Route)
    (min_trips : ℕ) (h : trips.length < min_trips) :
    discover_routes clusterFn idGen trips store min_trips =
      ({ success := false, routes_discovered := 0, routes_updated := 0,
         trips_processed := trips.length, clusters_found := none,
         message := "Not enough trips (" ++ toString trips.length ++ "/" ++
           toString min_trips ++ "). Need more data." }, store) := by
  rw [discover_routes, if_pos h]

/-- Witness for C5: zero fetched trips against the default
`min_trips = 50`. -/
theorem insufficient_trips_aborts_witness :
    discover_routes (fun _ => []) (fun _ => "") ([] : List TripRec) ([] : List Route) 50 =
      ({ success := false, routes_discovered := 0, routes_updated := 0,
         trips_processed := 0, clusters_found := none,
         message := "Not enough trips (0/50). Need more data." }, ([] : List Route)) :=
  insufficient_trips_aborts _ _ _ _ _ (by decide)

/-! ## C6: upsert of synthesized candidates -/

theorem upsert_no_match (cand : RouteC) (rid : String) :
    ∀ db : List Route, (∀ r ∈ db, routeMatches cand r = false) →
      upsert_candidate db cand rid = (db ++ [newRoute cand rid], true) := by
  intro db
  induction db with
  | nil => intro _; rfl
  | cons r rest ih =>
    intro h
    have hr : routeMatches cand r = false := h r (List.mem_cons_self r rest)
    simp only [upsert_candidate, hr, Bool.false_eq_true, if_false]
    rw [ih fun r' hr' => h r' (List.mem_cons_of_mem r hr')]
    simp

theorem upsert_first_match (cand : RouteC) (rid : String) :
    ∀ (db₁ : List Route) (r : Route) (db₂ : List Route),
      (∀ r' ∈ db₁, routeMatches cand r' = false) → routeMatches cand r = true →
      upsert_candidate (db₁ ++ r :: db₂) cand rid =
        (db₁ ++ updateRoute r cand :: db₂, false) := by
  intro db₁
  induction db₁ with
  | nil =>
    intro r db₂ _ hr
    simp only [List.nil_append, upsert_candidate, hr, if_true]
  | cons a rest ih =>
    intro r db₂ h hr
    have ha : routeMatches cand a = false := h a (List.mem_cons_self a rest)
    simp only [List.cons_append, upsert_candidate, ha, Bool.false_eq_true, if_false,
      List.append_eq]
    rw [ih r db₂ (fun r' hr' => h r' (List.mem_cons_of_mem a hr')) hr]

/-- C6 (amended): for each synthesized candidate, if the store holds a
route with the same `(origin, destination)` pair, the first such route
gets `trip_count` incremented by the candidate's and
`avg_duration_minutes` set to the two-point mean, and nothing is
inserted; otherwise a new route is appended with the supplied fresh
identifier, `active = true` and fare `round(distance_km * 0.5, 0)`
(the product is rounded to an integer, not stored exactly). -/
theorem upsert_candidate_spec (cand : RouteC) (rid : String) :
    (∀ db : List Route, (∀ r ∈ db, routeMatches cand r = false) →
        upsert_candidate db cand rid = (db ++ [newRoute cand rid], true))
    ∧ (∀ (db₁ : List Route) (r : Route) (db₂ : List Route),
        (∀ r' ∈ db₁, routeMatches cand r' = false) → routeMatches cand r = true →
        upsert_candidate (db₁ ++ r :: db₂) cand rid =
          (db₁ ++ updateRoute r cand :: db₂, false))
    ∧ (newRoute cand rid).route_id = rid
    ∧ (newRoute cand rid).is_active = true
    ∧ (newRoute cand rid).fare_egp = pyRoundTo 0 (cand.distance_km * 0.5)
    ∧ (newRoute cand rid).trip_count = cand.trip_count
    ∧ (∀ r : Route,
        (updateRoute r cand).trip_count = r.trip_count + cand.trip_count
        ∧ (updateRoute r cand).avg_duration_minutes =
            (r.avg_duration_minutes.add cand.avg_duration_minutes).divR 2) :=
  ⟨upsert_no_match cand rid, upsert_first_match cand rid, rfl, rfl, rfl, rfl,
    fun _ => ⟨rfl, rfl⟩⟩

/-- A concrete synthesized candidate with `distance_km = 1.2`. -/
noncomputable def sampleCand : RouteC :=
  { origin := "Ramses Square",
    destination := "Tahrir Square",
    origin_lat := 30.0619,
    origin_lon := 31.2466,
    dest_lat := 30.0444,
    dest_lon := 31.2357,
    distance_km := 1.2,
    avg_duration_minutes := .val 4,
    trip_count := 3 }

/-- Witness for C6: inserting `sampleCand` into an empty store appends
exactly the freshly built route row. -/
theorem upsert_candidate_spec_witness :
    upsert_candidate ([] : List Route) sampleCand "route_discovered_x_0" =
      ([newRoute sampleCand "route_discovered_x_0"], true) :=
  (upsert_candidate_spec sampleCand "route_discovered_x_0").1 [] (by simp)

theorem floor_point6 : ⌊(0.6 : ℝ)⌋ = 0 := by
  rw [Int.floor_eq_iff]
  norm_num

theorem pyRoundTo0_point6 : pyRoundTo 0 (0.6 : ℝ) = 1 := by
  have hfr : Int.fract (0.6 : ℝ) = 0.6 := by
    rw [Int.fract, floor_point6]; norm_num
  rw [pyRoundTo, pyRound, pow_zero, mul_one, div_one, hfr,
    if_neg (by norm_num), round_eq]
  have : ⌊(0.6 : ℝ) + 1 / 2⌋ = 1 := by
    rw [Int.floor_eq_iff]
    norm_num
  rw [this]
  norm_num

/-- Counterexample for C6 as stated: the route inserted for a candidate
with `distance_km = 1.2` carries fare `1`, not
`distance_km × 0.5 = 0.6` — the code rounds the product to an
integer. -/
theorem upsert_fare_not_exact :
    (upsert_candidate ([] : List Route) sampleCand "rid0").1.map Route.fare_egp =
      [(1 : ℝ)] ∧ sampleCand.distance_km * 0.5 ≠ (1 : ℝ) := by
  constructor
  · show [(newRoute sampleCand "rid0").fare_egp] = [(1 : ℝ)]
    have h : (newRoute sampleCand "rid0").fare_egp = pyRoundTo 0 (1.2 * 0.5 : ℝ) := rfl
    rw [h, show ((1.2 : ℝ) * 0.5) = 0.6 by norm_num, pyRoundTo0_point6]
  · show (1.2 : ℝ) * 0.5 ≠ 1
    norm_num

/-! ## C4: scoring and selection in `match_route` -/

theorem le_foldl_max (f : Route → ℚ) :
    ∀ (l : List Route) (a : ℚ), a ≤ l.foldl (fun acc r => max acc (f r)) a := by
  intro l
  induction l with
  | nil => intro a; simp
  | cons r t ih => intro a; exact le_trans (le_max_left a (f r)) (ih (max a (f r)))

theorem foldl_max_attained (f : Route → ℚ) :
    ∀ (l : List Route) (a : ℚ),
      l.foldl (fun acc r => max acc (f r)) a = a ∨
        ∃ r ∈ l, f r = l.foldl (fun acc r => max acc (f r)) a := by
  intro l
  induction l with
  | nil => intro a; exact Or.inl rfl
  | cons r t ih =>
    intro a
    simp only [List.foldl_cons]
    rcases ih (max a (f r)) with h | ⟨r', hr', he⟩
    · rcases le_total (f r) a with hle | hle
      · rw [max_eq_left hle] at h ⊢
        exact Or.inl h
      · rw [max_eq_right hle] at h ⊢
        exact Or.inr ⟨r, List.mem_cons_self r t, h.symm⟩
    · exact Or.inr ⟨r', List.mem_cons_of_mem r hr', he⟩

theorem matchFold_spec (origin_text dest_text : String) :
    ∀ (l : List Route) (st : Option Route × ℚ × String),
      (l.foldl (matchStep origin_text dest_text) st).2.1 =
          l.foldl (fun acc r => max acc (routeScore origin_text dest_text r)) st.2.1
      ∧ (l.foldl (matchStep origin_text dest_text) st).1 =
          (if l.foldl (fun acc r => max acc (routeScore origin_text dest_text r)) st.2.1
              = st.2.1 then st.1
           else l.find? (fun r => routeScore origin_text dest_text r ==
              l.foldl (fun acc r => max acc (routeScore origin_text dest_text r)) st.2.1)) := by
  intro l
  induction l with
  | nil =>
    intro st
    exact ⟨rfl, by simp⟩
  | cons r t ih =>
    intro st
    simp only [List.foldl_cons]
    by_cases hgt : routeScore origin_text dest_text r > st.2.1
    · have h1 : (matchStep origin_text dest_text st r).2.1 =
          routeScore origin_text dest_text r := by
        simp [matchStep, hgt]
      have h0 : (matchStep origin_text dest_text st r).1 = some r := by
        simp [matchStep, hgt]
      have hmax : max st.2.1 (routeScore origin_text dest_text r) =
          routeScore origin_text dest_text r := max_eq_right (le_of_lt hgt)
      obtain ⟨ih1, ih2⟩ := ih (matchStep origin_text dest_text st r)
      rw [h1] at ih1 ih2
      rw [h0] at ih2
      constructor
      · rw [hmax, ih1]
      · rw [hmax, ih2]
        have hBs : routeScore origin_text dest_text r ≤
            t.foldl (fun acc x => max acc (routeScore origin_text dest_text x))
              (routeScore origin_text dest_text r) :=
          le_foldl_max _ t _
        have hBne : t.foldl (fun acc x => max acc (routeScore origin_text dest_text x))
            (routeScore origin_text dest_text r) ≠ st.2.1 :=
          fun he => absurd (he ▸ hBs) (not_le.mpr hgt)
        rw [if_neg hBne]
        by_cases hsB : t.foldl (fun acc x => max acc (routeScore origin_text dest_text x))
            (routeScore origin_text dest_text r) = routeScore origin_text dest_text r
        · rw [if_pos hsB,
            List.find?_cons_of_pos t (by simp [hsB])]
        · rw [if_neg hsB, List.find?_cons_of_neg t ?_]
          simp only [beq_iff_eq]
          exact fun h => hsB h.symm
    · have h1 : (matchStep origin_text dest_text st r).2.1 = st.2.1 := by
        simp [matchStep, hgt]
      have h0 : (matchStep origin_text dest_text st r).1 = st.1 := by
        simp [matchStep, hgt]
      have hle : routeScore origin_text dest_text r ≤ st.2.1 := not_lt.mp hgt
      have hmax : max st.2.1 (routeScore origin_text dest_text r) = st.2.1 :=
        max_eq_left hle
      obtain ⟨ih1, ih2⟩ := ih (matchStep origin_text dest_text st r)
      rw [h1] at ih1 ih2
      rw [h0] at ih2
      constructor
      · rw [hmax, ih1]
      · rw [hmax, ih2]
        by_cases hBe : t.foldl (fun acc x => max acc (routeScore origin_text dest_text x))
            st.2.1 = st.2.1
        · rw [if_pos hBe, if_pos hBe]
        · rw [if_neg hBe, if_neg hBe]
          have hlt : st.2.1 <
              t.foldl (fun acc x => max acc (routeScore origin_text dest_text x)) st.2.1 :=
            lt_of_le_of_ne (le_foldl_max _ t _) (fun he => hBe he.symm)
          have hne : routeScore origin_text dest_text r ≠
              t.foldl (fun acc x => max acc (routeScore origin_text dest_text x)) st.2.1 :=
            ne_of_lt (lt_of_le_of_lt hle hlt)
          rw [List.find?_cons_of_neg t (by simp [hne])]

/-- C4: `match_route` scores every active route with
`1` (both canonical names resolve and equal the route's), else `0.8`
(substring test passes for both ends), else `0.4` (for exactly one
end), else `0`; the first route attaining the strictly highest score is
returned with `confidence` equal to that score, and when the best score
is below `0.4` the result is unmatched with confidence `0`. -/
theorem match_route_scoring (origin_text dest_text : String) (store : List Route) :
    ((match_route origin_text dest_text store).matched =
        decide (score04 ≤ bestScore origin_text dest_text (store.filter (·.is_active))))
    ∧ ((match_route origin_text dest_text store).confidence =
        if score04 ≤ bestScore origin_text dest_text (store.filter (·.is_active))
        then bestScore origin_text dest_text (store.filter (·.is_active)) else 0)
    ∧ ((match_route origin_text dest_text store).route =
        if score04 ≤ bestScore origin_text dest_text (store.filter (·.is_active))
        then ((store.filter (·.is_active)).find? fun r =>
                routeScore origin_text dest_text r ==
                  bestScore origin_text dest_text (store.filter (·.is_active))).map
              Route.toPayload
        else none)
    ∧ (∀ r : Route, routeScore origin_text dest_text r =
        (if (get_canonical_name origin_text).isSome && (get_canonical_name dest_text).isSome &&
            (get_canonical_name origin_text == get_canonical_name r.origin) &&
            (get_canonical_name dest_text == get_canonical_name r.destination) then (1 : ℚ)
         else if (pyIn (normalize_text origin_text) (normalize_text r.origin) ||
                  pyIn (normalize_text r.origin) (normalize_text origin_text) ||
                  (match get_canonical_name origin_text with
                    | some c => pyIn c (normalize_text r.origin)
                    | none => false)) &&
                 (pyIn (normalize_text dest_text) (normalize_text r.destination) ||
                  pyIn (normalize_text r.destination) (normalize_text dest_text) ||
                  (match get_canonical_name dest_text with
                    | some c => pyIn c (normalize_text r.destination)
                    | none => false)) then score08
         else if (pyIn (normalize_text origin_text) (normalize_text r.origin) ||
                  pyIn (normalize_text r.origin) (normalize_text origin_text) ||
                  (match get_canonical_name origin_text with
                    | some c => pyIn c (normalize_text r.origin)
                    | none => false)) ||
                 (pyIn (normalize_text dest_text) (normalize_text r.destination) ||
                  pyIn (normalize_text r.destination) (normalize_text dest_text) ||
                  (match get_canonical_name dest_text with
                    | some c => pyIn c (normalize_text r.destination)
                    | none => false)) then score04
         else (0 : ℚ))) := by
  obtain ⟨h1, h2⟩ :=
    matchFold_spec origin_text dest_text (store.filter (·.is_active)) (none, 0, "none")
  have hBb : bestScore origin_text dest_text (store.filter (·.is_active)) =
      (store.filter (·.is_active)).foldl
        (fun acc r => max acc (routeScore origin_text dest_text r)) 0 := rfl
  have h1' : ((store.filter (·.is_active)).foldl
      (matchStep origin_text dest_text) (none, 0, "none")).2.1 =
      bestScore origin_text dest_text (store.filter (·.is_active)) := by
    rw [hBb]; exact h1
  have h2' : ((store.filter (·.is_active)).foldl
      (matchStep origin_text dest_text) (none, 0, "none")).1 =
      (if bestScore origin_text dest_text (store.filter (·.is_active)) = 0 then none
       else (store.filter (·.is_active)).find? fun r =>
         routeScore origin_text dest_text r ==
           bestScore origin_text dest_text (store.filter (·.is_active))) := by
    rw [hBb]; exact h2
  by_cases hB : bestScore origin_text dest_text (store.filter (·.is_active)) = 0
  · have hnle : ¬ score04 ≤ bestScore origin_text dest_text (store.filter (·.is_active)) := by
      rw [hB]; decide
    have hmr : match_route origin_text dest_text store = noMatchResult := by
      rw [match_route]
      simp only [h2', if_pos hB]
    refine ⟨?_, ?_, ?_, fun r => rfl⟩
    · rw [hmr, decide_eq_false hnle]; rfl
    · rw [hmr, if_neg hnle]; rfl
    · rw [hmr, if_neg hnle]; rfl
  · have hBpos : (0 : ℚ) <
        bestScore origin_text dest_text (store.filter (·.is_active)) :=
      lt_of_le_of_ne (hBb ▸ le_foldl_max _ _ 0) (fun he => hB he.symm)
    obtain ⟨r₀, hr₀⟩ : ∃ r₀, ((store.filter (·.is_active)).find? fun r =>
        routeScore origin_text dest_text r ==
          bestScore origin_text dest_text (store.filter (·.is_active))) = some r₀ := by
      rcases foldl_max_attained (routeScore origin_text dest_text)
          (store.filter (·.is_active)) 0 with hc | ⟨r', hr', he⟩
      · exact absurd (hBb.trans hc) hB
      · refine Option.isSome_iff_exists.mp (List.find?_isSome.mpr ⟨r', hr', ?_⟩)
        simp [he, hBb]
    have hfold1 : ((store.filter (·.is_active)).foldl
        (matchStep origin_text dest_text) (none, 0, "none")).1 = some r₀ := by
      rw [h2', if_neg hB, hr₀]
    by_cases hge : score04 ≤ bestScore origin_text dest_text (store.filter (·.is_active))
    · have hmr : match_route origin_text dest_text store =
          { matched := true, route := some r₀.toPayload,
            match_type := ((store.filter (·.is_active)).foldl
              (matchStep origin_text dest_text) (none, 0, "none")).2.2,
            confidence := bestScore origin_text dest_text (store.filter (·.is_active)),
            suggestion := none } := by
        rw [match_route]
        simp only [hfold1, h1']
        rw [if_pos hge]
      refine ⟨?_, ?_, ?_, fun r => rfl⟩
      · rw [hmr, decide_eq_true hge]
      · rw [hmr, if_pos hge]
      · rw [hmr, if_pos hge, hr₀]; rfl
    · have hmr : match_route origin_text dest_text store = noMatchResult := by
        rw [match_route]
        simp only [hfold1, h1']
        rw [if_neg hge]
      refine ⟨?_, ?_, ?_, fun r => rfl⟩
      · rw [hmr, decide_eq_false hge]; rfl
      · rw [hmr, if_neg hge]; rfl
      · rw [hmr, if_neg hge]; rfl

/-! ## C7: trajectory extraction

Insertion sort by timestamp key is a sorted permutation (Mathlib), and
it is stable: for every key value, the sublist of fixes with that key is
unchanged — which is exactly the stability guarantee of Python's
`sorted`. -/

theorem sortPoints_cons (x : GpsPoint) (t : List GpsPoint) :
    sortPoints (x :: t) = List.orderedInsert tsLe x (sortPoints t) := rfl

theorem orderedInsert_filter_pos (x : GpsPoint) (k : String) (hx : tsKey x = k) :
    ∀ l : List GpsPoint,
      (List.orderedInsert tsLe x l).filter (fun p => tsKey p == k) =
        x :: l.filter (fun p => tsKey p == k) := by
  intro l
  induction l with
  | nil => simp [List.orderedInsert, hx]
  | cons b t ih =>
    simp only [List.orderedInsert]
    by_cases h : tsLe x b
    · rw [if_pos h, List.filter_cons_of_pos (by simp [hx])]
    · have hb : tsKey b ≠ k := by
        rw [← hx]
        exact ne_of_lt (not_le.mp h)
      rw [if_neg h, List.filter_cons_of_neg (by simp [hb]), ih,
        List.filter_cons_of_neg (by simp [hb])]

theorem orderedInsert_filter_neg (x : GpsPoint) (k : String) (hx : tsKey x ≠ k) :
    ∀ l : List GpsPoint,
      (List.orderedInsert tsLe x l).filter (fun p => tsKey p == k) =
        l.filter (fun p => tsKey p == k) := by
  intro l
  induction l with
  | nil => simp [List.orderedInsert, hx]
  | cons b t ih =>
    simp only [List.orderedInsert]
    by_cases h : tsLe x b
    · rw [if_pos h, List.filter_cons_of_neg (by simp [hx])]
    · by_cases hbk : tsKey b = k
      · rw [if_neg h, List.filter_cons_of_pos (by simp [hbk]), ih,
          List.filter_cons_of_pos (by simp [hbk])]
      · rw [if_neg h, List.filter_cons_of_neg (by simp [hbk]), ih,
          List.filter_cons_of_neg (by simp [hbk])]

theorem sortPoints_filter (k : String) :
    ∀ l : List GpsPoint,
      (sortPoints l).filter (fun p => tsKey p == k) =
        l.filter (fun p => tsKey p == k) := by
  intro l
  induction l with
  | nil => rfl
  | cons x t ih =>
    rw [sortPoints_cons]
    by_cases hx : tsKey x = k
    · rw [orderedInsert_filter_pos x k hx (sortPoints t), ih,
        List.filter_cons_of_pos (by simp [hx])]
    · rw [orderedInsert_filter_neg x k hx (sortPoints t), ih,
        List.filter_cons_of_neg (by simp [hx])]

/-- C7: `extract_trajectory_features` yields no summary exactly when
fewer than `MIN_GPS_POINTS` fixes are supplied; otherwise, after a
stable ascending sort by timestamp (a sorted permutation that preserves
the relative order of equal keys), the summary's start is the first
sorted fix, its end the last, its `distance_km` the summed consecutive
haversine distances divided by 1000, and its `point_count` the number
of fixes. -/
theorem extract_trajectory_spec (pts : List GpsPoint) :
    (extract_trajectory_features pts = none ↔ pts.length < MIN_GPS_POINTS)
    ∧ (∀ (p : GpsPoint) (rest : List GpsPoint), sortPoints pts = p :: rest →
        MIN_GPS_POINTS ≤ pts.length →
        extract_trajectory_features pts =
          some { start := (p.latitude, p.longitude),
                 endp := (((p :: rest).getLast (List.cons_ne_nil p rest)).latitude,
                          ((p :: rest).getLast (List.cons_ne_nil p rest)).longitude),
                 distance_km := pathDist (p :: rest) / 1000,
                 point_count := pts.length })
    ∧ List.Sorted tsLe (sortPoints pts)
    ∧ (sortPoints pts).Perm pts
    ∧ (∀ k : String,
        (sortPoints pts).filter (fun p => tsKey p == k) =
          pts.filter (fun p => tsKey p == k)) := by
  have hlen : (sortPoints pts).length = pts.length :=
    (List.perm_insertionSort tsLe pts).length_eq
  refine ⟨?_, ?_, List.sorted_insertionSort tsLe pts,
    List.perm_insertionSort tsLe pts, fun k => sortPoints_filter k pts⟩
  · by_cases h : pts.length < MIN_GPS_POINTS
    · simp [extract_trajectory_features, h]
    · simp only [extract_trajectory_features, if_neg h]
      cases hs : sortPoints pts with
      | nil =>
        exfalso
        rw [hs] at hlen
        simp only [List.length_nil] at hlen
        rw [MIN_GPS_POINTS] at h
        omega
      | cons p rest => simp [h]
  · intro p rest hs hge
    simp only [extract_trajectory_features, if_neg (not_lt.mpr hge), hs]
    have hl : (p :: rest).length = pts.length := by rw [← hs]; exact hlen
    rw [hl]

/-- Witness for C7: the empty fix list yields no summary. -/
theorem extract_trajectory_spec_witness :
    extract_trajectory_features [] = none :=
  (extract_trajectory_spec []).1.mpr (by decide)

/-! ## Geometric lemmas about the haversine distance -/

theorem hav_core_nonneg (R lat1 lon1 lat2 lon2 : ℝ) (hR : 0 ≤ R) :
    0 ≤ hav_core R lat1 lon1 lat2 lon2 := by
  rw [hav_core]
  have h1 : 0 ≤ Real.arcsin (Real.sqrt (hav_a lat1 lon1 lat2 lon2)) :=
    Real.arcsin_nonneg.mpr (Real.sqrt_nonneg _)
  positivity

theorem haversine_nonneg (lat1 lon1 lat2 lon2 : ℝ) :
    0 ≤ haversine_distance lat1 lon1 lat2 lon2 :=
  hav_core_nonneg _ _ _ _ _ (by norm_num)

theorem hav_a_self (lat lon : ℝ) : hav_a lat lon lat lon = 0 := by
  simp [hav_a]

theorem haversine_self (lat lon : ℝ) : haversine_distance lat lon lat lon = 0 := by
  rw [haversine_distance, hav_core, hav_a_self, Real.sqrt_zero, Real.arcsin_zero]
  ring

theorem rad_mem_Icc (lat : ℝ) (h1 : -90 ≤ lat) (h2 : lat ≤ 90) :
    rad lat ∈ Set.Icc (-(Real.pi / 2)) (Real.pi / 2) := by
  have hπ := Real.pi_pos
  constructor
  · rw [rad]; nlinarith
  · rw [rad]; nlinarith

theorem hav_a_lower (lat1 lon1 lat2 lon2 : ℝ)
    (h1 : -90 ≤ lat1) (h1' : lat1 ≤ 90) (h2 : -90 ≤ lat2) (h2' : lat2 ≤ 90) :
    Real.sin ((rad lat2 - rad lat1) / 2) ^ 2 ≤ hav_a lat1 lon1 lat2 lon2 := by
  rw [hav_a]
  have hc1 : 0 ≤ Real.cos (rad lat1) :=
    Real.cos_nonneg_of_mem_Icc (rad_mem_Icc lat1 h1 h1')
  have hc2 : 0 ≤ Real.cos (rad lat2) :=
    Real.cos_nonneg_of_mem_Icc (rad_mem_Icc lat2 h2 h2')
  have hs : 0 ≤ Real.sin ((rad lon2 - rad lon1) / 2) ^ 2 := sq_nonneg _
  have := mul_nonneg (mul_nonneg hc1 hc2) hs
  linarith

theorem haversine_pos (lat1 lon1 lat2 lon2 : ℝ) (hlt : lat1 < lat2)
    (h1 : -90 ≤ lat1) (h2 : lat2 ≤ 90) :
    0 < haversine_distance lat1 lon1 lat2 lon2 := by
  have hπ := Real.pi_pos
  have hhalf : (rad lat2 - rad lat1) / 2 = (lat2 - lat1) * Real.pi / 360 := by
    rw [rad, rad]; ring
  have hhp : 0 < (lat2 - lat1) * Real.pi / 360 := by
    have : 0 < lat2 - lat1 := sub_pos.mpr hlt
    positivity
  have hhlt : (lat2 - lat1) * Real.pi / 360 < Real.pi := by nlinarith
  have hsin : 0 < Real.sin ((rad lat2 - rad lat1) / 2) := by
    rw [hhalf]
    exact Real.sin_pos_of_pos_of_lt_pi hhp hhlt
  have hla : Real.sin ((rad lat2 - rad lat1) / 2) ^ 2 ≤ hav_a lat1 lon1 lat2 lon2 :=
    hav_a_lower lat1 lon1 lat2 lon2 h1 (by linarith) (by linarith) h2
  have hapos : 0 < hav_a lat1 lon1 lat2 lon2 := lt_of_lt_of_le (by positivity) hla
  have hsq : 0 < Real.sqrt (hav_a lat1 lon1 lat2 lon2) := Real.sqrt_pos.mpr hapos
  have harc : 0 < Real.arcsin (Real.sqrt (hav_a lat1 lon1 lat2 lon2)) :=
    Real.arcsin_pos.mpr hsq
  rw [haversine_distance, hav_core]
  positivity

theorem haversine_lower_from_zero (lat2 lon2 : ℝ) (h29 : 29 ≤ lat2) (h90 : lat2 ≤ 90) :
    2000 < haversine_distance 0 0 lat2 lon2 := by
  have hπ := Real.pi_pos
  have hπ3 := Real.pi_gt_three
  have hrad0 : rad 0 = 0 := by rw [rad]; ring
  have hhalf : (rad lat2 - rad 0) / 2 = lat2 * Real.pi / 360 := by
    rw [rad, hrad0]; ring
  have hhp : 0 ≤ lat2 * Real.pi / 360 := by positivity
  have hhle : lat2 * Real.pi / 360 ≤ Real.pi / 2 := by nlinarith
  have hsnn : 0 ≤ Real.sin ((rad lat2 - rad 0) / 2) := by
    rw [hhalf]
    exact Real.sin_nonneg_of_nonneg_of_le_pi hhp (by nlinarith)
  have hla : Real.sin ((rad lat2 - rad 0) / 2) ^ 2 ≤ hav_a 0 0 lat2 lon2 :=
    hav_a_lower 0 0 lat2 lon2 (by norm_num) (by norm_num) (by linarith) h90
  have hann : 0 ≤ hav_a 0 0 lat2 lon2 := le_trans (sq_nonneg _) hla
  have hsqrt : Real.sin ((rad lat2 - rad 0) / 2) ≤
      Real.sqrt (hav_a 0 0 lat2 lon2) :=
    (Real.le_sqrt hsnn hann).mpr hla
  have harc : lat2 * Real.pi / 360 ≤
      Real.arcsin (Real.sqrt (hav_a 0 0 lat2 lon2)) := by
    have h1 : Real.arcsin (Real.sin ((rad lat2 - rad 0) / 2)) ≤
        Real.arcsin (Real.sqrt (hav_a 0 0 lat2 lon2)) :=
      Real.monotone_arcsin hsqrt
    rw [hhalf] at h1
    rw [Real.arcsin_sin (by nlinarith) hhle] at h1
    exact h1
  rw [haversine_distance, hav_core]
  nlinarith

/-! ## Facts about the hub registry -/

theorem hub_lat_bounds (n : String) (la lo : ℝ) (h : (n, la, lo) ∈ CAIRO_HUBS) :
    29 ≤ la ∧ la ≤ 90 := by
  simp only [CAIRO_HUBS, List.mem_cons, List.not_mem_nil, or_false,
    Prod.mk.injEq] at h
  rcases h with ⟨-, rfl, -⟩ | ⟨-, rfl, -⟩ | ⟨-, rfl, -⟩ | ⟨-, rfl, -⟩ | ⟨-, rfl, -⟩ |
    ⟨-, rfl, -⟩ | ⟨-, rfl, -⟩ | ⟨-, rfl, -⟩ | ⟨-, rfl, -⟩ | ⟨-, rfl, -⟩ | ⟨-, rfl, -⟩ |
    ⟨-, rfl, -⟩ | ⟨-, rfl, -⟩ | ⟨-, rfl, -⟩ | ⟨-, rfl, -⟩ | ⟨-, rfl, -⟩ | ⟨-, rfl, -⟩ |
    ⟨-, rfl, -⟩ | ⟨-, rfl, -⟩ | ⟨-, rfl, -⟩ <;> norm_num

theorem hubs_far_from_origin :
    ∀ hub ∈ CAIRO_HUBS, ¬ haversine_distance 0 0 hub.2.1 hub.2.2 ≤ 2000 := by
  intro hub hmem
  obtain ⟨h29, h90⟩ := hub_lat_bounds hub.1 hub.2.1 hub.2.2 (by
    have : (hub.1, hub.2.1, hub.2.2) = hub := rfl
    rw [this]; exact hmem)
  exact not_le.mpr (haversine_lower_from_zero hub.2.1 hub.2.2 h29 h90)

/-! ## Behaviour of the `find_nearest_hub` scan -/

theorem fnhFold_none (lat lon maxd : ℝ) :
    ∀ hubs : List (String × ℝ × ℝ),
      (∀ hub ∈ hubs, ¬ haversine_distance lat lon hub.2.1 hub.2.2 ≤ maxd) →
      hubs.foldl (fnhStep lat lon maxd) none = none := by
  intro hubs
  induction hubs with
  | nil => intro _; rfl
  | cons hub rest ih =>
    intro h
    have hstep : fnhStep lat lon maxd none hub = none := by
      simp [fnhStep, h hub (List.mem_cons_self hub rest)]
    rw [List.foldl_cons, hstep]
    exact ih fun hub' hm => h hub' (List.mem_cons_of_mem hub hm)

theorem fnhFold_keep_zero (lat lon maxd : ℝ) (n : String) :
    ∀ hubs : List (String × ℝ × ℝ),
      hubs.foldl (fnhStep lat lon maxd) (some (n, 0)) = some (n, 0) := by
  intro hubs
  induction hubs with
  | nil => rfl
  | cons hub rest ih =>
    have hstep : fnhStep lat lon maxd (some (n, 0)) hub = some (n, 0) := by
      simp only [fnhStep]
      rw [if_neg]
      intro ⟨hlt, _⟩
      exact absurd hlt (not_lt.mpr (haversine_nonneg lat lon hub.2.1 hub.2.2))
    rw [List.foldl_cons, hstep, ih]

theorem fnhFold_sound (lat lon maxd : ℝ) :
    ∀ (hubs : List (String × ℝ × ℝ)) (st : Option (String × ℝ)) (n : String) (m : ℝ),
      hubs.foldl (fnhStep lat lon maxd) st = some (n, m) →
      (st = some (n, m) ∨
        (m ≤ maxd ∧ ∃ la lo, (n, la, lo) ∈ hubs ∧ m = haversine_distance lat lon la lo))
      ∧ (∀ hub ∈ hubs, haversine_distance lat lon hub.2.1 hub.2.2 ≤ maxd →
          m ≤ haversine_distance lat lon hub.2.1 hub.2.2)
      ∧ (∀ (n₀ : String) (m₀ : ℝ), st = some (n₀, m₀) → m ≤ m₀) := by
  intro hubs
  induction hubs with
  | nil =>
    intro st n m h
    refine ⟨Or.inl h, by simp, ?_⟩
    intro n₀ m₀ h₀
    have := (h.symm.trans h₀)
    rw [Option.some_inj, Prod.mk.injEq] at this
    exact le_of_eq this.2
  | cons hub rest ih =>
    intro st n m h
    rw [List.foldl_cons] at h
    obtain ⟨ihA, ihB, ihC⟩ := ih (fnhStep lat lon maxd st hub) n m h
    rcases st with _ | ⟨n₀, m₀⟩
    · by_cases hd : haversine_distance lat lon hub.2.1 hub.2.2 ≤ maxd
      · have hstep : fnhStep lat lon maxd none hub =
            some (hub.1, haversine_distance lat lon hub.2.1 hub.2.2) := by
          simp [fnhStep, hd]
        refine ⟨?_, ?_, by simp⟩
        · rcases ihA with hA | ⟨hb, la, lo, hmem, hm⟩
          · rw [hstep, Option.some_inj, Prod.mk.injEq] at hA
            refine Or.inr ⟨hA.2 ▸ hd, hub.2.1, hub.2.2, ?_, hA.2.symm⟩
            rw [← hA.1]
            exact List.mem_cons_self hub rest
          · exact Or.inr ⟨hb, la, lo, List.mem_cons_of_mem hub hmem, hm⟩
        · intro hub' hmem' hle'
          rcases List.mem_cons.mp hmem' with rfl | hmem'
          · exact ihC hub'.1 _ hstep
          · exact ihB hub' hmem' hle'
      · have hstep : fnhStep lat lon maxd none hub = none := by
          simp [fnhStep, hd]
        refine ⟨?_, ?_, by simp⟩
        · rcases ihA with hA | ⟨hb, la, lo, hmem, hm⟩
          · rw [hstep] at hA
            exact absurd hA (by simp)
          · exact Or.inr ⟨hb, la, lo, List.mem_cons_of_mem hub hmem, hm⟩
        · intro hub' hmem' hle'
          rcases List.mem_cons.mp hmem' with rfl | hmem'
          · exact absurd hle' hd
          · exact ihB hub' hmem' hle'
    · by_cases hc : haversine_distance lat lon hub.2.1 hub.2.2 < m₀ ∧
          haversine_distance lat lon hub.2.1 hub.2.2 ≤ maxd
      · have hstep : fnhStep lat lon maxd (some (n₀, m₀)) hub =
            some (hub.1, haversine_distance lat lon hub.2.1 hub.2.2) := by
          simp only [fnhStep]
          rw [if_pos hc]
        have hmd : m ≤ haversine_distance lat lon hub.2.1 hub.2.2 :=
          ihC hub.1 _ hstep
        refine ⟨?_, ?_, ?_⟩
        · rcases ihA with hA | ⟨hb, la, lo, hmem, hm⟩
          · rw [hstep, Option.some_inj, Prod.mk.injEq] at hA
            refine Or.inr ⟨hA.2 ▸ hc.2, hub.2.1, hub.2.2, ?_, hA.2.symm⟩
            rw [← hA.1]
            exact List.mem_cons_self hub rest
          · exact Or.inr ⟨hb, la, lo, List.mem_cons_of_mem hub hmem, hm⟩
        · intro hub' hmem' hle'
          rcases List.mem_cons.mp hmem' with rfl | hmem'
          · exact hmd
          · exact ihB hub' hmem' hle'
        · intro n₁ m₁ h₁
          rw [Option.some_inj, Prod.mk.injEq] at h₁
          rw [← h₁.2]
          exact le_of_lt (lt_of_le_of_lt hmd hc.1)
      · have hstep : fnhStep lat lon maxd (some (n₀, m₀)) hub = some (n₀, m₀) := by
          simp only [fnhStep]
          rw [if_neg hc]
        have hmm₀ : m ≤ m₀ := ihC n₀ m₀ hstep
        refine ⟨?_, ?_, ?_⟩
        · rcases ihA with hA | ⟨hb, la, lo, hmem, hm⟩
          · rw [hstep] at hA
            exact Or.inl hA
          · exact Or.inr ⟨hb, la, lo, List.mem_cons_of_mem hub hmem, hm⟩
        · intro hub' hmem' hle'
          rcases List.mem_cons.mp hmem' with rfl | hmem'
          · have : m₀ ≤ haversine_distance lat lon hub'.2.1 hub'.2.2 := by
              by_contra hno
              exact hc ⟨not_le.mp hno, hle'⟩
            exact le_trans hmm₀ this
          · exact ihB hub' hmem' hle'
        · intro n₁ m₁ h₁
          rw [Option.some_inj, Prod.mk.injEq] at h₁
          rw [← h₁.2]
          exact hmm₀

/-! ## C2: hub snapping is bounded by 2000 m -/

/-- C2 (amended): `find_nearest_hub` (as called during synthesis, with
the default bound of 2000 m) returns a hub only if that hub is a
registry entry within 2000 m of the query point — and it is a closest
qualifying one; a point farther than 2000 m from every hub fails to
snap, however many hubs the registry holds. -/
theorem snap_bounded :
    (∀ (lat lon : ℝ) (n : String), find_nearest_hub lat lon 2000 = some n →
      ∃ la lo, (n, la, lo) ∈ CAIRO_HUBS ∧
        haversine_distance lat lon la lo ≤ 2000 ∧
        ∀ hub ∈ CAIRO_HUBS, haversine_distance lat lon hub.2.1 hub.2.2 ≤ 2000 →
          haversine_distance lat lon la lo ≤ haversine_distance lat lon hub.2.1 hub.2.2)
    ∧ (∀ lat lon : ℝ,
        (∀ hub ∈ CAIRO_HUBS, ¬ haversine_distance lat lon hub.2.1 hub.2.2 ≤ 2000) →
        find_nearest_hub lat lon 2000 = none) := by
  constructor
  · intro lat lon n h
    rw [find_nearest_hub] at h
    obtain ⟨p, hp, hp1⟩ := Option.map_eq_some'.mp h
    obtain ⟨hA, hB, -⟩ := fnhFold_sound lat lon 2000 CAIRO_HUBS none n p.2 (by
      rw [hp, ← hp1])
    rcases hA with hA | ⟨hb, la, lo, hmem, hm⟩
    · exact absurd hA (by simp)
    · refine ⟨la, lo, hmem, hm ▸ hb, ?_⟩
      intro hub hmem' hle'
      exact hm ▸ hB hub hmem' hle'
  · intro lat lon h
    rw [find_nearest_hub, fnhFold_none lat lon 2000 CAIRO_HUBS h]
    rfl

/-- Witness for C2: the point `(0, 0)` (far south-west of Cairo) does
not snap to any hub. -/
theorem snap_bounded_witness : find_nearest_hub 0 0 2000 = none :=
  snap_bounded.2 0 0 hubs_far_from_origin

theorem npMeanR_single (x : ℝ) : npMeanR [x] = x := by
  simp [npMeanR]

theorem fnh_origin_none : find_nearest_hub 0 0 2000 = none := by
  rw [find_nearest_hub, fnhFold_none 0 0 2000 CAIRO_HUBS hubs_far_from_origin]
  rfl

/-- A trajectory summary whose endpoints sit at `(0, 0)`, far from every
Cairo hub. -/
noncomputable def trajFar : Traj :=
  { start := (0, 0)
    endp := (0, 0)
    distance_km := 0
    point_count := 0 }

/-- Counterexample for C2 as stated: a cluster whose mean start point is
`(0, 0)` fails to snap (and synthesizes no route) even though the hub
registry is non-empty — snapping is not unbounded. -/
theorem snap_unbounded_cex :
    CAIRO_HUBS ≠ [] ∧
    cluster_origin_hub [trajFar] = none ∧
    extract_route_from_cluster [trajFar] [] = none := by
  have ho : cluster_origin_hub [trajFar] = none := by
    rw [cluster_origin_hub]
    simp only [List.map_cons, List.map_nil, trajFar]
    rw [npMeanR_single]
    exact fnh_origin_none
  refine ⟨by simp [CAIRO_HUBS], ho, ?_⟩
  rw [extract_route_from_cluster, if_neg (by simp), ho]

/-! ## C8: when a cluster is rejected -/

/-- C8: a non-empty cluster synthesizes no route exactly when the mean
start fails to snap, the mean end fails to snap, or both snap to the
same hub; in particular equal snapped hubs never yield a route. -/
theorem cluster_rejection (trajectories : List Traj) (trips : List TripRec)
    (h : trajectories ≠ []) :
    extract_route_from_cluster trajectories trips = none ↔
      cluster_origin_hub trajectories = none ∨
      cluster_dest_hub trajectories = none ∨
      cluster_origin_hub trajectories = cluster_dest_hub trajectories := by
  rw [extract_route_from_cluster, if_neg h]
  rcases ho : cluster_origin_hub trajectories with _ | oh <;>
    rcases hd : cluster_dest_hub trajectories with _ | dh
  · simp
  · simp
  · simp
  · by_cases he : oh = dh
    · simp [he]
    · simp [he]

/-- Witness for C8 at the concrete singleton cluster `[trajFar]`. -/
theorem cluster_rejection_witness :
    extract_route_from_cluster [trajFar] [] = none ↔
      cluster_origin_hub [trajFar] = none ∨
      cluster_dest_hub [trajFar] = none ∨
      cluster_origin_hub [trajFar] = cluster_dest_hub [trajFar] :=
  cluster_rejection [trajFar] [] (by simp)

/-! ## C1: the 3-minutes-per-km fallback is unreachable when no
duration data exists

`numpy.mean` of the empty duration list is NaN, NaN is truthy, and
`round(NaN, 0)` is NaN — so a cluster whose trips all lack duration
data gets `avg_duration_minutes = NaN`, not `round(mean_distance*3)`. -/

theorem fnh_ramses : find_nearest_hub 30.0619 31.2466 2000 = some "Ramses Square" := by
  rw [find_nearest_hub, CAIRO_HUBS, List.foldl_cons]
  have hstep : fnhStep 30.0619 31.2466 2000 none ("Ramses Square", 30.0619, 31.2466) =
      some ("Ramses Square", 0) := by
    simp only [fnhStep, haversine_self]
    rw [if_pos (by norm_num)]
  rw [hstep, fnhFold_keep_zero]
  rfl

theorem fnh_tahrir : find_nearest_hub 30.0444 31.2357 2000 = some "Tahrir Square" := by
  rw [find_nearest_hub, CAIRO_HUBS, List.foldl_cons, List.foldl_cons]
  have hpos : 0 < haversine_distance 30.0444 31.2357 30.0619 31.2466 :=
    haversine_pos 30.0444 31.2357 30.0619 31.2466 (by norm_num) (by norm_num) (by norm_num)
  have hstep2pos : ∀ m₀ : ℝ, 0 < m₀ →
      fnhStep 30.0444 31.2357 2000 (some ("Ramses Square", m₀))
        ("Tahrir Square", 30.0444, 31.2357) = some ("Tahrir Square", 0) := by
    intro m₀ hm₀
    simp only [fnhStep, haversine_self]
    rw [if_pos ⟨hm₀, by norm_num⟩]
  by_cases h1 : haversine_distance 30.0444 31.2357 30.0619 31.2466 ≤ 2000
  · have hstep1 : fnhStep 30.0444 31.2357 2000 none ("Ramses Square", 30.0619, 31.2466) =
        some ("Ramses Square", haversine_distance 30.0444 31.2357 30.0619 31.2466) := by
      simp [fnhStep, h1]
    rw [hstep1, hstep2pos _ hpos, fnhFold_keep_zero]
    rfl
  · have hstep1 : fnhStep 30.0444 31.2357 2000 none ("Ramses Square", 30.0619, 31.2466) =
        none := by
      simp [fnhStep, h1]
    have hstep2 : fnhStep 30.0444 31.2357 2000 none ("Tahrir Square", 30.0444, 31.2357) =
        some ("Tahrir Square", 0) := by
      simp only [fnhStep, haversine_self]
      rw [if_pos (by norm_num)]
    rw [hstep1, hstep2, fnhFold_keep_zero]
    rfl

/-- A trajectory summary starting exactly at Ramses Square and ending
exactly at Tahrir Square, with path length 2 km over 10 fixes. -/
noncomputable def trajRT : Traj :=
  { start := (30.0619, 31.2466)
    endp := (30.0444, 31.2357)
    distance_km := 2
    point_count := 10 }

/-- A trip with no recorded duration. -/
def tripNoDur : TripRec :=
  { duration_minutes := none
    gps_data := none }

/-- C1 (evaluation at the failing input): the cluster `[trajRT]` with a
single duration-less trip synthesizes a route whose
`avg_duration_minutes` is NaN — not the claimed fallback of
`round(mean_distance * 3) = 6` (NaN differs from every real value). -/
theorem duration_fallback_unreachable :
    (extract_route_from_cluster [trajRT] [tripNoDur]).map RouteC.avg_duration_minutes =
      some NpF.nan ∧
    ∀ x : ℝ, NpF.nan ≠ NpF.val x := by
  have ho : cluster_origin_hub [trajRT] = some "Ramses Square" := by
    rw [cluster_origin_hub]
    simp only [List.map_cons, List.map_nil, trajRT, npMeanR_single]
    exact fnh_ramses
  have hd : cluster_dest_hub [trajRT] = some "Tahrir Square" := by
    rw [cluster_dest_hub]
    simp only [List.map_cons, List.map_nil, trajRT, npMeanR_single]
    exact fnh_tahrir
  have hdur : npMean (tripDurations [tripNoDur]) = NpF.nan := by
    simp [tripDurations, tripNoDur, npMean]
  constructor
  · rw [extract_route_from_cluster, if_neg (by simp)]
    simp only [ho, hd]
    rw [if_neg (show ¬("Ramses Square" = "Tahrir Square") by decide)]
    simp only [Option.map_some']
    rw [show (mkRouteC [trajRT] [tripNoDur] "Ramses Square"
        "Tahrir Square").avg_duration_minutes = NpF.nan from by
      simp only [mkRouteC, hdur]
      rw [if_pos (show NpF.truthy NpF.nan by trivial)]]
  · intro x
    simp

/-! ## C3: `estimate_distance` rounds, and is monotone -/

theorem fract_def (z : ℝ) : Int.fract z = z - (⌊z⌋ : ℝ) := rfl

theorem floor_add_half_of_lt (z : ℝ) (h : Int.fract z < 1/2) : ⌊z + 1/2⌋ = ⌊z⌋ := by
  rw [Int.floor_eq_iff]
  have h0 := Int.fract_nonneg z
  rw [fract_def] at h h0
  constructor
  · linarith
  · linarith

theorem floor_add_half_of_ge (z : ℝ) (h : 1/2 ≤ Int.fract z) : ⌊z + 1/2⌋ = ⌊z⌋ + 1 := by
  rw [Int.floor_eq_iff]
  have h1 := Int.fract_lt_one z
  rw [fract_def] at h h1
  constructor
  · push_cast
    linarith
  · push_cast
    linarith

theorem pyRound_le_floor_add_one (z : ℝ) : pyRound z ≤ ⌊z⌋ + 1 := by
  rw [pyRound]
  by_cases ht : Int.fract z = 1/2
  · rw [if_pos ht]
    split <;> omega
  · rw [if_neg ht, round_eq]
    rcases lt_or_le (Int.fract z) (1/2) with hlt | hge
    · rw [floor_add_half_of_lt z hlt]
      omega
    · rw [floor_add_half_of_ge z hge]

theorem floor_le_pyRound (z : ℝ) : ⌊z⌋ ≤ pyRound z := by
  rw [pyRound]
  by_cases ht : Int.fract z = 1/2
  · rw [if_pos ht]
    split <;> omega
  · rw [if_neg ht, round_eq]
    rcases lt_or_le (Int.fract z) (1/2) with hlt | hge
    · rw [floor_add_half_of_lt z hlt]
    · rw [floor_add_half_of_ge z hge]
      omega

theorem pyRound_mono {x y : ℝ} (h : x ≤ y) : pyRound x ≤ pyRound y := by
  rcases lt_or_eq_of_le (Int.floor_mono h) with hfl | hfl
  · calc pyRound x ≤ ⌊x⌋ + 1 := pyRound_le_floor_add_one x
      _ ≤ ⌊y⌋ := by omega
      _ ≤ pyRound y := floor_le_pyRound y
  · have hfr : Int.fract x ≤ Int.fract y := by
      rw [fract_def, fract_def, hfl]
      linarith
    rw [pyRound, pyRound]
    by_cases htx : Int.fract x = 1/2
    · rw [if_pos htx]
      by_cases hty : Int.fract y = 1/2
      · rw [if_pos hty, hfl]
      · rw [if_neg hty, round_eq,
          floor_add_half_of_ge y (le_of_lt (lt_of_le_of_ne (htx ▸ hfr) (Ne.symm hty)))]
        split <;> omega
    · rw [if_neg htx]
      by_cases hty : Int.fract y = 1/2
      · rw [if_pos hty, round_eq,
          floor_add_half_of_lt x (lt_of_le_of_ne (hty ▸ hfr) htx)]
        split <;> omega
      · rw [if_neg hty, round_eq, round_eq]
        exact Int.floor_mono (by linarith)

theorem pyRoundTo_mono (n : ℕ) {x y : ℝ} (h : x ≤ y) : pyRoundTo n x ≤ pyRoundTo n y := by
  rw [pyRoundTo, pyRoundTo]
  have h1 : x * 10 ^ n ≤ y * 10 ^ n :=
    mul_le_mul_of_nonneg_right h (by positivity)
  have h2 : ((pyRound (x * 10 ^ n) : ℤ) : ℝ) ≤ ((pyRound (y * 10 ^ n) : ℤ) : ℝ) :=
    Int.cast_le.mpr (pyRound_mono h1)
  exact (div_le_div_iff_of_pos_right (by positivity)).mpr h2

theorem hav_core_self (R lat lon : ℝ) : hav_core R lat lon lat lon = 0 := by
  rw [hav_core, hav_a_self, Real.sqrt_zero, Real.arcsin_zero]
  ring

/-- C3 (amended): `estimate_distance` returns the haversine great-circle
distance (Earth radius 6371 km) multiplied by exactly `1.35` and then
rounded to two decimals, and it is weakly monotone in the great-circle
distance. -/
theorem estimate_distance_spec :
    (∀ origin_lat origin_lon dest_lat dest_lon : ℝ,
      estimate_distance origin_lat origin_lon dest_lat dest_lon =
        pyRoundTo 2 (straight_distance origin_lat origin_lon dest_lat dest_lon * 1.35))
    ∧ (∀ a₁ b₁ c₁ d₁ a₂ b₂ c₂ d₂ : ℝ,
        straight_distance a₁ b₁ c₁ d₁ ≤ straight_distance a₂ b₂ c₂ d₂ →
        estimate_distance a₁ b₁ c₁ d₁ ≤ estimate_distance a₂ b₂ c₂ d₂) := by
  refine ⟨fun _ _ _ _ => rfl, ?_⟩
  intro a₁ b₁ c₁ d₁ a₂ b₂ c₂ d₂ h
  rw [estimate_distance, estimate_distance]
  exact pyRoundTo_mono 2 (mul_le_mul_of_nonneg_right h (by norm_num))

/-- Witness for C3: the degenerate pair (same point) is estimated at
most as long as the antipodal-longitude pair. -/
theorem estimate_distance_spec_witness :
    estimate_distance 0 0 0 0 ≤ estimate_distance 0 0 0 90 :=
  estimate_distance_spec.2 0 0 0 0 0 0 0 90 (by
    rw [straight_distance, hav_core_self]
    exact hav_core_nonneg 6371 0 0 0 90 (by norm_num))

theorem straight_distance_pi : straight_distance 0 0 0 180 = 6371 * Real.pi := by
  rw [straight_distance, hav_core, hav_a]
  have h0 : rad 0 = 0 := by rw [rad]; ring
  have h180 : rad 180 = Real.pi := by rw [rad]; ring
  rw [h0, h180]
  have hz : ((0 : ℝ) - 0) / 2 = 0 := by norm_num
  have hpi2 : (Real.pi - 0) / 2 = Real.pi / 2 := by ring
  rw [hz, hpi2, Real.sin_zero, Real.cos_zero, Real.sin_pi_div_two]
  norm_num [Real.sqrt_one, Real.arcsin_one]
  ring

/-- Counterexample for C3 as stated: at the pair `(0,0) → (0,180)` the
true value `1.35 ×` haversine equals `8600.85 π`, which is irrational,
while `estimate_distance` returns a rational number (an integer number
of hundredths) — so the function does not return exactly `1.35 ×` the
haversine value. -/
theorem estimate_distance_not_exact :
    estimate_distance 0 0 0 180 ≠ straight_distance 0 0 0 180 * 1.35 := by
  intro he
  have hirr : Irrational (straight_distance 0 0 0 180 * 1.35) := by
    rw [straight_distance_pi]
    have hq : (6371 : ℝ) * Real.pi * 1.35 = ((860085 / 100 : ℚ) : ℝ) * Real.pi := by
      push_cast
      ring
    rw [hq]
    exact irrational_pi.rat_mul (by norm_num)
  rw [← he] at hirr
  exact hirr.ne_rat
    ((pyRound (straight_distance 0 0 0 180 * 1.35 * 10 ^ 2) : ℚ) / 100)
    (by
      rw [estimate_distance, pyRoundTo]
      push_cast
      norm_num)

end DNerve
